import Mathlib

/-!
Verification development for the dynastore repository (DynamoDB-backed
gorilla session store).  The Go source is shallowly embedded: each Go
function the claims touch is translated into an executable Lean
definition, external collaborators (securecookie, gob/base64,
dynamodbattribute, the DynamoDB client) are modelled at the granularity
the program uses them, and the claims are settled as theorems about
those definitions.

The repository contains three variants of the store:
  - the dynastore package (options.go together with serializers.go):
    serializer-based marshal/unmarshal, TTL handling in load/save;
  - an aws-sdk-go-v2 fork (store.go): raw attribute copying in Load,
    no serializer;
  - an older dynamodbstore package (unnamed/part_000): codec-only,
    error-propagating New.
All three are embedded below where a claim refers to them.
-/

namespace Dynastore

/-- The error values declared in the dynastore package (errNotFound,
errMalformedSession, errEncodeFailed, errDecodeFailed), plus an error
produced by dynamodbattribute.Unmarshal (attrErr) and a generic backend
transport error (aws). -/
inductive Err where
  | notFound
  | malformedSession
  | encodeFailed
  | decodeFailed
  | attrErr
  | aws
  deriving DecidableEq

/-- The session payload map (Go map[interface\x7b\x7d]interface\x7b\x7d);
modelled with string keys and string values, which is the shape the
repository's own tests exercise.  Association list, order irrelevant. -/
abbrev Values := List (String × String)

/-- Model of a Go string.  Strings produced by the external encoders are
opaque to the program — it never inspects their characters, only hands
them back to the matching decoder — so they are tracked here by their
abstract content: gobB64 v is the base64 text of the gob encoding of v,
and token key name v is a securecookie token minted by codec `key` for
session name `name` over payload v.  Ordinary string data is str s. -/
inductive GoString where
  | str (s : String)
  | gobB64 (v : Values)
  | token (key : Nat) (name : String) (v : Values)
  deriving DecidableEq

/-- gorilla sessions.Options (path, domain, max-age, secure, http-only);
defaults are the Go zero values. -/
structure SessOptions where
  path : String := ""
  domain : String := ""
  maxAge : Int := 0
  secure : Bool := false
  httpOnly : Bool := false
  deriving DecidableEq

/-- The subset of dynamodb.AttributeValue shapes this program reads or
writes: a string attribute (S), a number attribute (N, stored as its
decimal string as in the AWS API), and a map attribute holding a
marshalled sessions.Options (M). -/
structure AttributeValue where
  S : Option GoString := none
  N : Option String := none
  M : Option SessOptions := none
  deriving DecidableEq

/-- A DynamoDB item: map from attribute name to attribute value,
modelled as an association list. -/
abbrev Record := List (String × AttributeValue)

/-- Go map lookup on an item. -/
def Record.find (r : Record) (k : String) : Option AttributeValue :=
  match r.find? (fun p => p.1 == k) with
  | some p => some p.2
  | none => none

/-- Field-name constants from the dynastore package. -/
def idField : String := "id"

def valuesField : String := "values"

def optionsField : String := "options"

def DefaultTTLField : String := "ttl"

/-- gorilla sessions.Session, restricted to the fields this program
reads and writes. -/
structure Session where
  ID : GoString := .str ""
  isNew : Bool := false
  values : Values := []
  options : Option SessOptions := none
  deriving DecidableEq

/-- gorilla sessions.NewSession: empty values, nil options, IsNew true
(gorilla/sessions v1.2.1, pinned by go.mod). -/
def newSession : Session :=
  { ID := .str "", isNew := true, values := [], options := none }

/-! ## Models of the external serialization collaborators -/

/-- securecookie.EncodeMulti(name, values, codecs...): encodes with the
first codec; fails when no codecs are configured.  (The library's
maximum-length check is not modelled.) -/
def EncodeMulti (name : String) (v : Values) (codecs : List Nat) :
    Except Unit GoString :=
  match codecs with
  | [] => .error ()
  | k :: _ => .ok (.token k name v)

/-- securecookie.DecodeMulti(name, value, dst, codecs...): succeeds
exactly on tokens minted under the same session name by one of the
configured codecs (the name is mixed into the MAC); every other string
fails authentication. -/
def DecodeMulti (name : String) (s : GoString) (codecs : List Nat) :
    Except Unit Values :=
  match s with
  | .token k n v => if k ∈ codecs ∧ n = name then .ok v else .error ()
  | _ => .error ()

/-- gob-encode followed by base64.StdEncoding.EncodeToString, as in
gobSerializer.marshal; total on the modelled string-valued maps (gob
cannot fail on them). -/
def gobB64Encode (v : Values) : GoString := .gobB64 v

/-- base64.StdEncoding.DecodeString followed by gob-decode, as in
gobSerializer.unmarshal; only strings produced by gobB64Encode decode,
anything else fails at the base64 or gob stage. -/
def gobB64Decode (s : GoString) : Except Unit Values :=
  match s with
  | .gobB64 v => .ok v
  | _ => .error ()

/-- dynamodbattribute.Marshal on a sessions.Options value: always a map
attribute (it cannot fail on this struct type; the fallible signature is
kept to mirror the call sites). -/
def attributeMarshal (o : SessOptions) : Except Err AttributeValue :=
  .ok { M := some o }

/-- dynamodbattribute.Unmarshal of an attribute into a sessions.Options
struct: succeeds on a map attribute, errors otherwise. -/
def attributeUnmarshal (av : AttributeValue) : Except Err SessOptions :=
  match av.M with
  | some o => .ok o
  | none => .error .attrErr

/-- Model of Go strconv.ParseInt(s, 10, 64): optional single sign
character, a nonempty run of decimal digits, and a 64-bit range check
(out-of-range input is an error). -/
def parseInt64 (s : String) : Option Int :=
  let parseDigits : List Char → Option Nat := fun cs =>
    if cs.isEmpty then none
    else
      cs.foldl
        (fun acc c =>
          match acc with
          | none => none
          | some n => if c.isDigit then some (n * 10 + (c.toNat - 48)) else none)
        (some 0)
  let signed : Int → List Char → Option Int := fun sign cs =>
    match parseDigits cs with
    | none => none
    | some n =>
      let v : Int := sign * (n : Int)
      if -(2 ^ 63) ≤ v ∧ v < 2 ^ 63 then some v else none
  match s.data with
  | '+' :: cs => signed 1 cs
  | '-' :: cs => signed (-1) cs
  | cs => signed 1 cs

/-- Result of a Go function that either returns a value, returns an
error, or panics at runtime (nil-pointer dereference).  `panicked`
models the Go panic, which is not an error return. -/
inductive Outcome (α : Type) where
  | ok (a : α)
  | err (e : Err)
  | panicked
  deriving DecidableEq

/-! ## serializers.go -/

namespace codecSerializer

/-- codecSerializer.marshal (serializers.go): encode the values map with
securecookie.EncodeMulti, build the item with the id and values string
fields, and attach the marshalled options when present. -/
def marshal (codecs : List Nat) (name : String) (session : Session) :
    Except Err Record :=
  match EncodeMulti name session.values codecs with
  | .error _ => .error .encodeFailed
  | .ok values =>
    let av : Record :=
      [(idField, { S := some session.ID }), (valuesField, { S := some values })]
    match session.options with
    | some o =>
      match attributeMarshal o with
      | .error e => .error e
      | .ok options => .ok (av ++ [(optionsField, options)])
    | none => .ok av

/-- codecSerializer.unmarshal (serializers.go): empty item is NotFound;
missing or non-string id or values field is MalformedSession; a values
string that fails authentication is DecodeFailed; on success the target
session gets isNew = false, the stored id and values, and the stored
options when that field is present. -/
def unmarshal (codecs : List Nat) (name : String) (input : Record)
    (session : Session) : Outcome Session :=
  if input.isEmpty then .err .notFound
  else
    match Record.find input idField with
    | none => .err .malformedSession
    | some av =>
      match av.S with
      | none => .err .malformedSession
      | some id =>
        match Record.find input valuesField with
        | none => .err .malformedSession
        | some av2 =>
          match av2.S with
          | none => .err .malformedSession
          | some s =>
            match DecodeMulti name s codecs with
            | .error _ => .err .decodeFailed
            | .ok values =>
              let session :=
                { session with isNew := false, ID := id, values := values }
              match Record.find input optionsField with
              | none => .ok session
              | some av3 =>
                match attributeUnmarshal av3 with
                | .error e => .err e
                | .ok o => .ok { session with options := some o }

end codecSerializer

namespace gobSerializer

/-- gobSerializer.marshal (serializers.go): gob-encode the values map,
base64 it into the values string field, and attach id and optional
options as in the codec serializer. -/
def marshal (name : String) (session : Session) : Except Err Record :=
  let values := gobB64Encode session.values
  let av : Record :=
    [(idField, { S := some session.ID }), (valuesField, { S := some values })]
  match session.options with
  | some o =>
    match attributeMarshal o with
    | .error e => .error e
    | .ok options => .ok (av ++ [(optionsField, options)])
  | none => .ok av

/-- gobSerializer.unmarshal (serializers.go).  The values-field guard in
the source reads `if !ok && av.S != nil`: when the field is absent, the
guard evaluates av.S on a nil pointer and the function panics; when the
field is present but not a string attribute, the guard is false and the
subsequent *av.S dereference panics.  Both shapes are modelled as
`panicked`. -/
def unmarshal (name : String) (input : Record) (session : Session) :
    Outcome Session :=
  if input.isEmpty then .err .notFound
  else
    match Record.find input idField with
    | none => .err .malformedSession
    | some av =>
      match av.S with
      | none => .err .malformedSession
      | some id =>
        match Record.find input valuesField with
        | none => .panicked
        | some av2 =>
          match av2.S with
          | none => .panicked
          | some s =>
            match gobB64Decode s with
            | .error _ => .err .decodeFailed
            | .ok values =>
              let session :=
                { session with isNew := false, ID := id, values := values }
              match Record.find input optionsField with
              | none => .ok session
              | some av3 =>
                match attributeUnmarshal av3 with
                | .error e => .err e
                | .ok o => .ok { session with options := some o }

end gobSerializer

/-! ## The store (options.go) and a model of the DynamoDB backend -/

/-- An http.Cookie as built by newCookie. -/
structure Cookie where
  name : String := ""
  value : GoString := .str ""
  path : String := ""
  domain : String := ""
  maxAge : Int := 0
  secure : Bool := false
  httpOnly : Bool := false
  deriving DecidableEq

/-- newCookie (options.go): name and value always set; the five cookie
attributes copied from the session options when those are non-nil. -/
def newCookie (session : Session) (name : String) (value : GoString) : Cookie :=
  let cookie : Cookie := { name := name, value := value }
  match session.options with
  | some opts =>
    { cookie with
      path := opts.path, domain := opts.domain, maxAge := opts.maxAge,
      httpOnly := opts.httpOnly, secure := opts.secure }
  | none => cookie

/-- The serializer strategy held by the store: either the plain gob
serializer or the codec serializer with its configured codecs. -/
inductive SerializerKind where
  | gobSer
  | codecSer (codecs : List Nat)
  deriving DecidableEq

/-- Dispatch of serializer.marshal over the strategy. -/
def serializerMarshal : SerializerKind → String → Session → Except Err Record
  | .gobSer, name, s => gobSerializer.marshal name s
  | .codecSer cs, name, s => codecSerializer.marshal cs name s

/-- Dispatch of serializer.unmarshal over the strategy. -/
def serializerUnmarshal :
    SerializerKind → String → Record → Session → Outcome Session
  | .gobSer, name, input, s => gobSerializer.unmarshal name input s
  | .codecSer cs, name, input, s => codecSerializer.unmarshal cs name input s

/-- dynastore.Store (options.go), restricted to the fields the modelled
operations read: table name, ttl field name, configured codecs, the
chosen serializer and the store-wide default session options. -/
structure Store where
  tableName : String := ""
  ttlField : String := ""
  codecs : List Nat := []
  serializer : SerializerKind := .gobSer
  options : SessOptions := {}

/-- The functional options of options.go that affect the modelled state
(Codecs, TableName, SessionOptions, Path, Domain, MaxAge, Secure,
HTTPOnly; AWSConfig and DynamoDB only configure the client handle and
are outside the model). -/
inductive StoreOption where
  | codecsOpt (cs : List Nat)
  | tableNameOpt (s : String)
  | sessionOptionsOpt (o : SessOptions)
  | pathOpt (s : String)
  | domainOpt (s : String)
  | maxAgeOpt (v : Int)
  | secureOpt
  | httpOnlyOpt

/-- Application of one functional option to the store. -/
def applyOption (s : Store) : StoreOption → Store
  | .codecsOpt cs => { s with codecs := cs }
  | .tableNameOpt t => { s with tableName := t }
  | .sessionOptionsOpt o => { s with options := o }
  | .pathOpt v => { s with options := { s.options with path := v } }
  | .domainOpt v => { s with options := { s.options with domain := v } }
  | .maxAgeOpt v => { s with options := { s.options with maxAge := v } }
  | .secureOpt => { s with options := { s.options with secure := true } }
  | .httpOnlyOpt => { s with options := { s.options with httpOnly := true } }

/-- dynastore.New (options.go): start from the table name and the
default ttl field, apply the options in order, then pick the codec
serializer when codecs were supplied and the gob serializer otherwise
(client construction from the environment is outside the model). -/
def New (tablename : String) (opts : List StoreOption) : Store :=
  let store : Store := { tableName := tablename, ttlField := DefaultTTLField }
  let store := opts.foldl applyOption store
  if store.codecs.isEmpty then { store with serializer := .gobSer }
  else { store with serializer := .codecSer store.codecs }

/-- One call this program makes against the backend table or the HTTP
response, in execution order. -/
inductive Op where
  | put (id : GoString) (item : Record)
  | del (id : GoString)
  | setCookie (c : Cookie)
  deriving DecidableEq

/-- Point write: replace any item stored under the key. -/
def setItem (t : List (GoString × Record)) (k : GoString) (r : Record) :
    List (GoString × Record) :=
  (k, r) :: t.filter (fun p => p.1 != k)

/-- Point delete by key. -/
def eraseItem (t : List (GoString × Record)) (k : GoString) :
    List (GoString × Record) :=
  t.filter (fun p => p.1 != k)

/-- Point read: DynamoDB GetItem returns an empty item, not an error,
when nothing is stored under the key. -/
def getItem (t : List (GoString × Record)) (k : GoString) : Record :=
  match t.find? (fun p => p.1 == k) with
  | some p => p.2
  | none => []

/-- The world a store operation runs in: the current time (epoch
seconds), the backend table keyed by the id attribute, the cookies
emitted on the response so far, the log of backend/response calls, and
fault-injection flags for the three DynamoDB calls (a set flag makes
that call fail, modelling a transport error). -/
structure World where
  now : Int := 0
  table : List (GoString × Record) := []
  cookies : List Cookie := []
  ops : List Op := []
  putFail : Bool := false
  deleteFail : Bool := false
  getFail : Bool := false

/-- ddb.PutItemWithContext: the stored item is keyed by its id
attribute, which both serializers set to the session identifier passed
here. -/
def World.putItem (w : World) (k : GoString) (item : Record) :
    Except Err Unit × World :=
  if w.putFail then (.error .aws, w)
  else
    (.ok (),
      { w with table := setItem w.table k item, ops := w.ops ++ [.put k item] })

/-- ddb.DeleteItemWithContext by id; idempotent. -/
def World.deleteItem (w : World) (k : GoString) : Except Err Unit × World :=
  if w.deleteFail then (.error .aws, w)
  else (.ok (), { w with table := eraseItem w.table k, ops := w.ops ++ [.del k] })

/-- ddb.GetItemWithContext by id (consistent read); does not mutate. -/
def World.getItemRes (w : World) (k : GoString) : Except Err Record :=
  if w.getFail then .error .aws else .ok (getItem w.table k)

/-- http.SetCookie on the response writer. -/
def World.setCookie (w : World) (c : Cookie) : World :=
  { w with cookies := w.cookies ++ [c], ops := w.ops ++ [.setCookie c] }

/-- Store.save (options.go, lowercase): marshal the session; when the
ttl field name is nonempty, the options are non-nil and max-age is
strictly positive, attach the ttl attribute holding now + maxAge epoch
seconds as a number attribute; then PutItem. -/
def Store.save (store : Store) (name : String) (session : Session)
    (w : World) : Except Err Unit × World :=
  match serializerMarshal store.serializer name session with
  | .error e => (.error e, w)
  | .ok av =>
    let av :=
      match session.options with
      | some o =>
        if store.ttlField ≠ "" ∧ o.maxAge > 0 then
          av ++ [(store.ttlField, { N := some (toString (w.now + o.maxAge)) })]
        else av
      | none => av
    w.putItem session.ID av

/-- Store.delete (options.go, lowercase): DeleteItem by id. -/
def Store.delete (store : Store) (id : GoString) (w : World) :
    Except Err Unit × World :=
  w.deleteItem id

/-- Store.load (options.go): GetItem by the cookie value; empty item is
NotFound; a present ttl attribute must be a number attribute that parses
as an int64, else MalformedSession; a parsed ttl that is strictly
positive and strictly below the current time is NotFound; otherwise the
item is handed to the serializer. -/
def Store.load (store : Store) (name : String) (value : GoString)
    (session : Session) (w : World) : Outcome Session :=
  match w.getItemRes value with
  | .error e => .err e
  | .ok item =>
    if item.isEmpty then .err .notFound
    else
      match Record.find item store.ttlField with
      | some av =>
        match av.N with
        | none => .err .malformedSession
        | some s =>
          match parseInt64 s with
          | none => .err .malformedSession
          | some ttl =>
            if ttl > 0 ∧ ttl < w.now then .err .notFound
            else serializerUnmarshal store.serializer name item session
      | none => serializerUnmarshal store.serializer name item session

/-- Store.Save (options.go): run the lowercase save; on error return it
with no cookie; with non-nil options and negative max-age, emit the
clearing cookie (empty value) and then delete the record, returning the
delete result; otherwise emit the id-bearing cookie only when the
session is new. -/
def Store.Save (store : Store) (name : String) (session : Session)
    (w : World) : Except Err Unit × World :=
  match Store.save store name session w with
  | (.error e, w1) => (.error e, w1)
  | (.ok _, w1) =>
    match session.options with
    | some o =>
      if o.maxAge < 0 then
        let w2 := w1.setCookie (newCookie session name (.str ""))
        Store.delete store session.ID w2
      else
        if session.isNew then
          (.ok (), w1.setCookie (newCookie session name session.ID))
        else (.ok (), w1)
    | none =>
      if session.isNew then
        (.ok (), w1.setCookie (newCookie session name session.ID))
      else (.ok (), w1)

/-- The fresh session built on the fallback path of Store.New
(options.go): generated identifier, isNew true, options copied
field-by-field from the store-wide defaults. -/
def freshSession (store : Store) (freshId : String) : Session :=
  { newSession with
    ID := .str freshId
    isNew := true
    options := some
      { path := store.options.path, domain := store.options.domain,
        maxAge := store.options.maxAge, secure := store.options.secure,
        httpOnly := store.options.httpOnly } }

/-- Store.New (options.go): when the request carries the named cookie,
try to load the referenced record into a fresh gorilla session and
return it on success; on any load error fall back to the fresh session
(a Go panic inside load propagates).  cookieValue models
req.Cookie(name): none when the request has no such cookie, and freshId
models the random base32 identifier generated on the fallback path. -/
def Store.New (store : Store) (cookieValue : Option GoString) (name : String)
    (freshId : String) (w : World) : Outcome Session :=
  match cookieValue with
  | some v =>
    match Store.load store name v newSession w with
    | .ok s => .ok s
    | .panicked => .panicked
    | .err _ => .ok (freshSession store freshId)
  | none => .ok (freshSession store freshId)

end Dynastore

/-! ## The dynamodbstore variant (unnamed/part_000) -/

namespace dynamodbstore

open Dynastore

/-- Store.unmarshal (part_000): textually the codec serializer's
unmarshal with the store codecs. -/
def unmarshal (codecs : List Nat) (name : String) (input : Record)
    (session : Session) : Outcome Session :=
  if input.isEmpty then .err .notFound
  else
    match Record.find input idField with
    | none => .err .malformedSession
    | some av =>
      match av.S with
      | none => .err .malformedSession
      | some id =>
        match Record.find input valuesField with
        | none => .err .malformedSession
        | some av2 =>
          match av2.S with
          | none => .err .malformedSession
          | some s =>
            match DecodeMulti name s codecs with
            | .error _ => .err .decodeFailed
            | .ok values =>
              let session :=
                { session with isNew := false, ID := id, values := values }
              match Record.find input optionsField with
              | none => .ok session
              | some av3 =>
                match attributeUnmarshal av3 with
                | .error e => .err e
                | .ok o => .ok { session with options := some o }

/-- Store.load (part_000): GetItem by the cookie value (no ttl handling
in this variant), then unmarshal. -/
def load (codecs : List Nat) (name : String) (value : GoString)
    (session : Session) (w : World) : Outcome Session :=
  match w.getItemRes value with
  | .error e => .err e
  | .ok item => unmarshal codecs name item session

/-- Store.New (part_000): with a cookie present, load; on success return
the loaded session, and on any error other than NotFound return the
error with a nil session.  The fresh fallback session gets a generated
identifier and isNew true but no options (this variant has no store-wide
defaults). -/
def New (codecs : List Nat) (cookieValue : Option GoString) (name : String)
    (freshId : String) (w : World) : Outcome Session :=
  match cookieValue with
  | some v =>
    match load codecs name v newSession w with
    | .ok s => .ok s
    | .panicked => .panicked
    | .err e =>
      if e = .notFound then
        .ok { newSession with ID := .str freshId, isNew := true }
      else .err e
  | none => .ok { newSession with ID := .str freshId, isNew := true }

end dynamodbstore

/-! ## The aws-sdk-go-v2 fork (store.go) -/

namespace V2

/-- types.AttributeValueMemberS, the only member shape this variant
reads or writes. -/
inductive Attr where
  | S (s : String)
  deriving DecidableEq

/-- An item of the v2 table. -/
abbrev Item := List (String × Attr)

/-- The v2 table, keyed by the SessionHashKey attribute value. -/
abbrev Table := List (String × Item)

/-- The v2 session (gorilla sessions.Session); values hold raw attribute
values after a Load, so the entry type is Attr. -/
structure Session2 where
  id : String := ""
  isNew : Bool := false
  values : List (String × Attr) := []
  deriving DecidableEq

/-- Go map assignment of one item entry into session.Values. -/
def putValue (vs : List (String × Attr)) (k : String) (a : Attr) :
    List (String × Attr) :=
  (k, a) :: vs.filter (fun p => p.1 != k)

/-- Store.Load (store.go): GetItem by the given value, then copy every
attribute of the returned item into session.Values; the identifier and
the isNew flag of the target session are left untouched.  On a transport
error the nil GetItem output is dereferenced (out.Item), a panic. -/
def Load (t : Table) (getFail : Bool) (value : String)
    (session : Session2) : Dynastore.Outcome Session2 :=
  if getFail then .panicked
  else
    let item :=
      match t.find? (fun p => p.1 == value) with
      | some p => p.2
      | none => []
    .ok { session with values := item.foldl (fun vs p => putValue vs p.1 p.2) session.values }

end V2

namespace Dynastore

/-- C1: for every session (values map V, options O) and session name,
unmarshal after marshal succeeds and restores exactly the values and the
options into a fresh target session, for both serializer strategies (the
codec serializer needs at least one configured codec). -/
theorem c1_marshal_unmarshal_roundtrip (name : String) (sess : Session)
    (cs : List Nat) (h : cs ≠ []) :
    (∃ r s', codecSerializer.marshal cs name sess = .ok r ∧
      codecSerializer.unmarshal cs name r newSession = .ok s' ∧
      s'.values = sess.values ∧ s'.options = sess.options) ∧
    (∃ r s', gobSerializer.marshal name sess = .ok r ∧
      gobSerializer.unmarshal name r newSession = .ok s' ∧
      s'.values = sess.values ∧ s'.options = sess.options) := by
  obtain ⟨k, rest, rfl⟩ := List.exists_cons_of_ne_nil h
  constructor
  · cases hOpt : sess.options with
    | some o =>
      refine ⟨[(idField, { S := some sess.ID }),
               (valuesField, { S := some (.token k name sess.values) }),
               (optionsField, { M := some o })],
        ⟨sess.ID, false, sess.values, some o⟩, ?_, ?_, rfl, rfl⟩
      · simp [codecSerializer.marshal, EncodeMulti, attributeMarshal, hOpt,
          idField, valuesField, optionsField]
      · simp [codecSerializer.unmarshal, Record.find, DecodeMulti,
          attributeUnmarshal, idField, valuesField, optionsField, newSession]
    | none =>
      refine ⟨[(idField, { S := some sess.ID }),
               (valuesField, { S := some (.token k name sess.values) })],
        ⟨sess.ID, false, sess.values, none⟩, ?_, ?_, rfl, rfl⟩
      · simp [codecSerializer.marshal, EncodeMulti, hOpt, idField, valuesField]
      · simp [codecSerializer.unmarshal, Record.find, DecodeMulti,
          idField, valuesField, optionsField, newSession]
  · cases hOpt : sess.options with
    | some o =>
      refine ⟨[(idField, { S := some sess.ID }),
               (valuesField, { S := some (.gobB64 sess.values) }),
               (optionsField, { M := some o })],
        ⟨sess.ID, false, sess.values, some o⟩, ?_, ?_, rfl, rfl⟩
      · simp [gobSerializer.marshal, gobB64Encode, attributeMarshal, hOpt,
          idField, valuesField, optionsField]
      · simp [gobSerializer.unmarshal, Record.find, gobB64Decode,
          attributeUnmarshal, idField, valuesField, optionsField, newSession]
    | none =>
      refine ⟨[(idField, { S := some sess.ID }),
               (valuesField, { S := some (.gobB64 sess.values) })],
        ⟨sess.ID, false, sess.values, none⟩, ?_, ?_, rfl, rfl⟩
      · simp [gobSerializer.marshal, gobB64Encode, hOpt, idField, valuesField]
      · simp [gobSerializer.unmarshal, Record.find, gobB64Decode,
          idField, valuesField, optionsField, newSession]

/-- Witness for C1 at a concrete session and codec list. -/
theorem c1_marshal_unmarshal_roundtrip_witness :
    ([7] : List Nat) ≠ [] ∧
    ((∃ r s', codecSerializer.marshal [7] "blah"
        { ID := .str "a", isNew := true, values := [("hello", "world")],
          options := some { path := "path", maxAge := 123 } } = .ok r ∧
      codecSerializer.unmarshal [7] "blah" r newSession = .ok s' ∧
      s'.values = [("hello", "world")] ∧
      s'.options = some { path := "path", maxAge := 123 }) ∧
    (∃ r s', gobSerializer.marshal "blah"
        { ID := .str "a", isNew := true, values := [("hello", "world")],
          options := some { path := "path", maxAge := 123 } } = .ok r ∧
      gobSerializer.unmarshal "blah" r newSession = .ok s' ∧
      s'.values = [("hello", "world")] ∧
      s'.options = some { path := "path", maxAge := 123 })) :=
  ⟨by decide,
    c1_marshal_unmarshal_roundtrip "blah"
      { ID := .str "a", isNew := true, values := [("hello", "world")],
        options := some { path := "path", maxAge := 123 } } [7] (by decide)⟩

/-- C2 (code bug): on a non-empty record whose values field is absent,
the codec serializer returns MalformedSession as the spec says, but the
gob serializer panics on a nil-pointer dereference — its guard reads
`!ok && av.S != nil` where the codec serializer (and part_000) read
`!ok || av.S == nil`, so the MalformedSession return is unreachable.
The same happens when the values field is present but not a string
attribute. -/
theorem c2_gob_missing_values_field_panics :
    gobSerializer.unmarshal "blah"
      [(idField, { S := some (.str "abc") })] newSession = .panicked ∧
    gobSerializer.unmarshal "blah"
      [(idField, { S := some (.str "abc") }),
       (valuesField, { N := some "7" })] newSession = .panicked ∧
    codecSerializer.unmarshal [1] "blah"
      [(idField, { S := some (.str "abc") })] newSession =
      .err .malformedSession ∧
    codecSerializer.unmarshal [1] "blah"
      [(idField, { S := some (.str "abc") }),
       (valuesField, { N := some "7" })] newSession =
      .err .malformedSession :=
  ⟨rfl, rfl, rfl, rfl⟩

/-- C3 (counterexample): a physically present record whose ttl attribute
is present, parses as the integer 0, and is strictly below the current
time 100 is NOT treated as absent — load returns the session, because
the code additionally requires ttl > 0 before expiring. -/
theorem c3_counterexample_zero_ttl_loads :
    parseInt64 "0" = some 0 ∧ ((0 : Int) < 100) ∧
    Store.load (New "t" []) "n" (.str "a") newSession
      { now := 100,
        table := [((.str "a"),
          [(idField, { S := some (.str "a") }),
           (valuesField, { S := some (.gobB64 [("k", "v")]) }),
           ("ttl", { N := some "0" })])] } =
      .ok ⟨.str "a", false, [("k", "v")], none⟩ :=
  ⟨rfl, by decide, rfl⟩

/-- C3 (amended): a stored record whose ttl attribute is present, parses
as a strictly positive integer, and is strictly less than the current
time is treated as absent: load returns NotFound even though the record
is physically present. -/
theorem c3_amended_expired_positive_ttl_not_found
    (store : Store) (name : String) (v : GoString) (sess : Session)
    (w : World) (av : AttributeValue) (s : String) (t : Int)
    (hget : w.getFail = false)
    (hfind : Record.find (getItem w.table v) store.ttlField = some av)
    (hN : av.N = some s)
    (hparse : parseInt64 s = some t)
    (hpos : 0 < t) (hlt : t < w.now) :
    Store.load store name v sess w = .err .notFound := by
  have hne : (getItem w.table v).isEmpty = false := by
    cases hitem : getItem w.table v with
    | nil => rw [hitem] at hfind; exact absurd hfind (by simp [Record.find])
    | cons a l => rfl
  simp only [Store.load, World.getItemRes, hget, Bool.false_eq_true, if_false,
    hne, hfind, hN, hparse]
  rw [if_pos ⟨hpos, hlt⟩]

/-- Witness for the amended C3 at a concrete expired record. -/
theorem c3_amended_expired_positive_ttl_not_found_witness :
    Store.load (New "t" []) "n" (.str "a") newSession
      { now := 100,
        table := [((.str "a"),
          [(idField, { S := some (.str "a") }),
           (valuesField, { S := some (.gobB64 [("k", "v")]) }),
           ("ttl", { N := some "50" })])] } =
      .err .notFound :=
  c3_amended_expired_positive_ttl_not_found _ _ _ _ _ _ "50" 50
    rfl rfl rfl rfl (by decide) (by decide)

/-- C8: a stored record whose ttl attribute is present but is not a
number attribute, or whose number does not parse as an int64, makes load
fail with MalformedSession — it is neither treated as live nor as
absent. -/
theorem c8_unparseable_ttl_is_malformed
    (store : Store) (name : String) (v : GoString) (sess : Session)
    (w : World) (av : AttributeValue)
    (hget : w.getFail = false)
    (hfind : Record.find (getItem w.table v) store.ttlField = some av)
    (hbad : av.N = none ∨ ∃ s, av.N = some s ∧ parseInt64 s = none) :
    Store.load store name v sess w = .err .malformedSession := by
  have hne : (getItem w.table v).isEmpty = false := by
    cases hitem : getItem w.table v with
    | nil => rw [hitem] at hfind; exact absurd hfind (by simp [Record.find])
    | cons a l => rfl
  rcases hbad with hN | ⟨s, hN, hparse⟩
  · simp only [Store.load, World.getItemRes, hget, Bool.false_eq_true, if_false,
      hne, hfind, hN]
  · simp only [Store.load, World.getItemRes, hget, Bool.false_eq_true, if_false,
      hne, hfind, hN, hparse]

/-- Witness for C8 at a record whose ttl is a string attribute and at a
record whose ttl number is not parseable. -/
theorem c8_unparseable_ttl_is_malformed_witness :
    Store.load (New "t" []) "n" (.str "a") newSession
      { table := [((.str "a"), [("ttl", { S := some (.str "oops") })])] } =
      .err .malformedSession ∧
    Store.load (New "t" []) "n" (.str "a") newSession
      { table := [((.str "a"), [("ttl", { N := some "12e3" })])] } =
      .err .malformedSession :=
  ⟨c8_unparseable_ttl_is_malformed _ _ _ _ _ _ rfl rfl (.inl rfl),
   c8_unparseable_ttl_is_malformed _ _ _ _ _ _ rfl rfl
     (.inr ⟨"12e3", rfl, by decide⟩)⟩

/-! ## Helper lemmas about the backend model -/

/-- A put followed by a lookup of the same key yields the stored item. -/
theorem getItem_setItem (t : List (GoString × Record)) (k : GoString)
    (r : Record) : getItem (setItem t k r) k = r := by
  unfold getItem setItem
  rw [List.find?_cons_of_pos _ (by simp)]

/-- A delete followed by a lookup of the same key yields the empty item. -/
theorem getItem_eraseItem (t : List (GoString × Record)) (k : GoString) :
    getItem (eraseItem t k) k = [] := by
  unfold getItem eraseItem
  have hnone : List.find? (fun p => p.1 == k)
      (t.filter fun p => p.1 != k) = none := by
    rw [List.find?_eq_none]
    intro x hx
    rcases List.mem_filter.mp hx with ⟨-, hne⟩
    simpa using hne
  rw [hnone]

/-- PutItem never touches the response cookies. -/
theorem putItem_cookies (w : World) (k : GoString) (item : Record) :
    (w.putItem k item).2.cookies = w.cookies := by
  unfold World.putItem; split <;> rfl

/-- DeleteItem never touches the response cookies. -/
theorem deleteItem_cookies (w : World) (k : GoString) :
    (w.deleteItem k).2.cookies = w.cookies := by
  unfold World.deleteItem; split <;> rfl

/-- The lowercase save never touches the response cookies. -/
theorem save_preserves_cookies (store : Store) (name : String)
    (sess : Session) (w : World) :
    (Store.save store name sess w).2.cookies = w.cookies := by
  unfold Store.save
  cases hm : serializerMarshal store.serializer name sess with
  | error e => rfl
  | ok av => exact putItem_cookies _ _ _

/-- Neither serializer ever emits a ttl attribute from marshal: the item
keys are id, values and possibly options. -/
theorem marshal_find_ttl (ser : SerializerKind) (name : String)
    (sess : Session) (av : Record)
    (h : serializerMarshal ser name sess = .ok av) :
    Record.find av DefaultTTLField = none := by
  cases ser with
  | gobSer =>
    cases hOpt : sess.options with
    | some o =>
      simp [serializerMarshal, gobSerializer.marshal, hOpt,
        attributeMarshal] at h
      subst h
      simp [Record.find, idField, valuesField, optionsField, DefaultTTLField]
    | none =>
      simp [serializerMarshal, gobSerializer.marshal, hOpt] at h
      subst h
      simp [Record.find, idField, valuesField, DefaultTTLField]
  | codecSer cs =>
    cases cs with
    | nil => simp [serializerMarshal, codecSerializer.marshal, EncodeMulti] at h
    | cons c rest =>
      cases hOpt : sess.options with
      | some o =>
        simp [serializerMarshal, codecSerializer.marshal, EncodeMulti, hOpt,
          attributeMarshal] at h
        subst h
        simp [Record.find, idField, valuesField, optionsField, DefaultTTLField]
      | none =>
        simp [serializerMarshal, codecSerializer.marshal, EncodeMulti,
          hOpt] at h
        subst h
        simp [Record.find, idField, valuesField, DefaultTTLField]

/-- Looking up a key appended at the end of an item that does not
already hold it finds the appended attribute. -/
theorem Record.find_append_single (l : Record) (k : String)
    (x : AttributeValue) (h : Record.find l k = none) :
    Record.find (l ++ [(k, x)]) k = some x := by
  induction l with
  | nil => simp [Record.find]
  | cons a t ih =>
    by_cases hk : (a.1 == k) = true
    · exfalso
      simp [Record.find, List.find?_cons, hk] at h
    · simp only [Bool.not_eq_true] at hk
      simp only [Record.find, List.cons_append, List.find?_cons, hk] at h ⊢
      exact ih h

/-- The store built by dynastore.New always carries the default ttl
field name, whatever options are applied. -/
theorem New_ttlField (tn : String) (opts : List StoreOption) :
    (New tn opts).ttlField = DefaultTTLField := by
  have hfold : ∀ (s : Store) (l : List StoreOption),
      (l.foldl applyOption s).ttlField = s.ttlField := by
    intro s l
    induction l generalizing s with
    | nil => rfl
    | cons o t ih =>
      rw [List.foldl_cons, ih]
      cases o <;> rfl
  simp only [New]
  split <;> simp [hfold]

/-! ## Claims about Store.Save and Store.save -/

/-- C5: saving a session whose options carry a negative max-age deletes
the backing record from the table and emits exactly one cookie with an
empty value, whatever the isNew flag of the session is (the session and
its flag are universally quantified). -/
theorem c5_negative_maxage_save_deletes_and_clears
    (store : Store) (name : String) (sess : Session) (w : World)
    (o : SessOptions) (av : Record)
    (hOpt : sess.options = some o) (hneg : o.maxAge < 0)
    (hm : serializerMarshal store.serializer name sess = .ok av)
    (hput : w.putFail = false) (hdel : w.deleteFail = false) :
    (Store.Save store name sess w).1 = .ok () ∧
    getItem (Store.Save store name sess w).2.table sess.ID = [] ∧
    (Store.Save store name sess w).2.cookies =
      w.cookies ++ [newCookie sess name (.str "")] ∧
    (newCookie sess name (.str "")).value = .str "" := by
  have hcond : ¬(store.ttlField ≠ "" ∧ o.maxAge > 0) := by
    rintro ⟨-, h2⟩; omega
  simp only [Store.Save, Store.save, hm, hOpt, hcond, if_false,
    World.putItem, hput, Bool.false_eq_true, if_neg, Store.delete,
    World.deleteItem, World.setCookie, hdel, hneg, if_pos, not_false_eq_true]
  refine ⟨trivial, getItem_eraseItem _ _, trivial, ?_⟩
  simp [newCookie, hOpt]

/-- Witness for C5 at a concrete session with max-age -1 and isNew
false. -/
theorem c5_negative_maxage_save_deletes_and_clears_witness :
    (Store.Save (New "t" []) "n"
      ⟨.str "s1", false, [("a", "b")], some { maxAge := -1 }⟩ {}).1 =
      .ok () ∧
    getItem (Store.Save (New "t" []) "n"
      ⟨.str "s1", false, [("a", "b")], some { maxAge := -1 }⟩ {}).2.table
      (.str "s1") = [] ∧
    (Store.Save (New "t" []) "n"
      ⟨.str "s1", false, [("a", "b")], some { maxAge := -1 }⟩ {}).2.cookies =
      ([] : List Cookie) ++
        [newCookie ⟨.str "s1", false, [("a", "b")], some { maxAge := -1 }⟩
          "n" (.str "")] ∧
    (newCookie ⟨.str "s1", false, [("a", "b")], some { maxAge := -1 }⟩
      "n" (.str "")).value = .str "" :=
  c5_negative_maxage_save_deletes_and_clears (New "t" []) "n"
    ⟨.str "s1", false, [("a", "b")], some { maxAge := -1 }⟩ {}
    { maxAge := -1 } _ rfl (by decide) rfl rfl rfl

/-- C7: for a store built by dynastore.New, save attaches the ttl
attribute holding now + maxAge (epoch seconds) exactly when the session
options are present with a strictly positive max-age, and attaches no
ttl attribute when the options are nil or the max-age is zero or
negative. -/
theorem c7_save_ttl_attribute (tn : String) (opts : List StoreOption)
    (name : String) (sess : Session) (w : World) (av : Record)
    (hm : serializerMarshal (New tn opts).serializer name sess = .ok av)
    (hput : w.putFail = false) :
    (Store.save (New tn opts) name sess w).1 = .ok () ∧
    (∀ o, sess.options = some o → 0 < o.maxAge →
      Record.find
        (getItem (Store.save (New tn opts) name sess w).2.table sess.ID)
        DefaultTTLField = some { N := some (toString (w.now + o.maxAge)) }) ∧
    ((sess.options = none ∨ ∃ o, sess.options = some o ∧ o.maxAge ≤ 0) →
      Record.find
        (getItem (Store.save (New tn opts) name sess w).2.table sess.ID)
        DefaultTTLField = none) := by
  have httl : (New tn opts).ttlField = DefaultTTLField := New_ttlField tn opts
  refine ⟨?_, ?_, ?_⟩
  · simp only [Store.save, hm, World.putItem, hput, Bool.false_eq_true,
      if_false]
  · intro o hOpt hpos
    have hcond : (New tn opts).ttlField ≠ "" ∧ o.maxAge > 0 :=
      ⟨by rw [httl]; decide, hpos⟩
    simp only [Store.save, hm, hOpt, if_pos hcond, World.putItem, hput,
      Bool.false_eq_true, if_false]
    rw [getItem_setItem, httl]
    exact Record.find_append_single _ _ _ (marshal_find_ttl _ _ _ _ hm)
  · intro hcase
    rcases hcase with hOpt | ⟨o, hOpt, hle⟩
    · simp only [Store.save, hm, hOpt, World.putItem, hput,
        Bool.false_eq_true, if_false]
      rw [getItem_setItem]
      exact marshal_find_ttl _ _ _ _ hm
    · have hcond : ¬((New tn opts).ttlField ≠ "" ∧ o.maxAge > 0) := by
        rintro ⟨-, h2⟩; omega
      simp only [Store.save, hm, hOpt, if_neg hcond, World.putItem, hput,
        Bool.false_eq_true, if_false]
      rw [getItem_setItem]
      exact marshal_find_ttl _ _ _ _ hm

/-- Witness for C7 at a positive max-age session (ttl attached with
now + maxAge) and a zero max-age session (no ttl). -/
theorem c7_save_ttl_attribute_witness :
    (Store.save (New "t" []) "n"
      ⟨.str "s1", true, [("a", "b")], some { maxAge := 900 }⟩
      { now := 1000 }).1 = .ok () ∧
    Record.find
      (getItem (Store.save (New "t" []) "n"
        ⟨.str "s1", true, [("a", "b")], some { maxAge := 900 }⟩
        { now := 1000 }).2.table (.str "s1")) DefaultTTLField =
      some { N := some (toString ((1000 : Int) + 900)) } ∧
    Record.find
      (getItem (Store.save (New "t" []) "n"
        ⟨.str "s2", true, [("a", "b")], some { maxAge := 0 }⟩
        { now := 1000 }).2.table (.str "s2")) DefaultTTLField = none :=
  ⟨(c7_save_ttl_attribute "t" [] "n"
      ⟨.str "s1", true, [("a", "b")], some { maxAge := 900 }⟩
      { now := 1000 } _ rfl rfl).1,
   (c7_save_ttl_attribute "t" [] "n"
      ⟨.str "s1", true, [("a", "b")], some { maxAge := 900 }⟩
      { now := 1000 } _ rfl rfl).2.1 _ rfl (by decide),
   (c7_save_ttl_attribute "t" [] "n"
      ⟨.str "s2", true, [("a", "b")], some { maxAge := 0 }⟩
      { now := 1000 } _ rfl rfl).2.2 (.inr ⟨_, rfl, by decide⟩)⟩

/-- C10: a successful delete-save (negative max-age) first puts the
complete marshalled record under the session identifier, then emits the
clearing cookie, and only afterwards deletes the record by that
identifier — the operation log shows the write strictly before the
delete. -/
theorem c10_save_puts_before_delete
    (store : Store) (name : String) (sess : Session) (w : World)
    (o : SessOptions) (av : Record)
    (hOpt : sess.options = some o) (hneg : o.maxAge < 0)
    (hm : serializerMarshal store.serializer name sess = .ok av)
    (hput : w.putFail = false) (hdel : w.deleteFail = false) :
    (Store.Save store name sess w).1 = .ok () ∧
    (Store.Save store name sess w).2.ops =
      w.ops ++ [.put sess.ID av, .setCookie (newCookie sess name (.str "")),
        .del sess.ID] := by
  have hcond : ¬(store.ttlField ≠ "" ∧ o.maxAge > 0) := by
    rintro ⟨-, h2⟩; omega
  simp only [Store.Save, Store.save, hm, hOpt, hcond, if_false,
    World.putItem, hput, Bool.false_eq_true, if_neg, Store.delete,
    World.deleteItem, World.setCookie, hdel, hneg, if_pos, not_false_eq_true]
  simp

/-- Witness for C10 at a concrete delete-save. -/
theorem c10_save_puts_before_delete_witness :
    (Store.Save (New "t" []) "n"
      ⟨.str "s1", true, [("a", "b")], some { maxAge := -7 }⟩ {}).1 =
      .ok () ∧
    (Store.Save (New "t" []) "n"
      ⟨.str "s1", true, [("a", "b")], some { maxAge := -7 }⟩ {}).2.ops =
      ([] : List Op) ++
        [.put (.str "s1")
          [(idField, { S := some (.str "s1") }),
           (valuesField, { S := some (.gobB64 [("a", "b")]) }),
           (optionsField, { M := some { maxAge := -7 } })],
         .setCookie (newCookie
           ⟨.str "s1", true, [("a", "b")], some { maxAge := -7 }⟩ "n"
           (.str "")),
         .del (.str "s1")] :=
  c10_save_puts_before_delete (New "t" []) "n"
    ⟨.str "s1", true, [("a", "b")], some { maxAge := -7 }⟩ {}
    { maxAge := -7 } _ rfl (by decide) rfl rfl rfl


/-- C6 (counterexample): when the record delete of a negative-max-age
save fails, Save returns the error AFTER the clearing cookie has been
emitted — a partial-success state the claim rules out. -/
theorem c6_counterexample_error_after_cookie :
    (Store.Save (New "t" []) "n"
      ⟨.str "s1", false, [("a", "b")], some { maxAge := -1 }⟩
      { deleteFail := true }).1 = .error .aws ∧
    (Store.Save (New "t" []) "n"
      ⟨.str "s1", false, [("a", "b")], some { maxAge := -1 }⟩
      { deleteFail := true }).2.cookies ≠ [] := by
  exact ⟨rfl, by decide⟩

/-- C6 (amended): Save fails before any cookie is emitted, except when
the failure is the record delete of a negative-max-age save, in which
case exactly the single clearing cookie has already been emitted when
the error is returned. -/
theorem c6_amended_error_cookie_characterisation
    (store : Store) (name : String) (sess : Session) (w : World) (e : Err)
    (h : (Store.Save store name sess w).1 = .error e) :
    (Store.Save store name sess w).2.cookies = w.cookies ∨
    (∃ o, sess.options = some o ∧ o.maxAge < 0 ∧
      (Store.Save store name sess w).2.cookies =
        w.cookies ++ [newCookie sess name (.str "")]) := by
  have hsc := save_preserves_cookies store name sess w
  cases hsave : Store.save store name sess w with
  | mk r1 w1 =>
    rw [hsave] at hsc
    replace hsc : w1.cookies = w.cookies := hsc
    cases r1 with
    | error e1 =>
      left
      simp only [Store.Save, hsave]
      exact hsc
    | ok u =>
      cases hOpt : sess.options with
      | none =>
        exfalso
        simp only [Store.Save, hsave, hOpt] at h
        cases hnew : sess.isNew <;> simp [hnew] at h
      | some o =>
        by_cases hneg : o.maxAge < 0
        · cases hdf : w1.deleteFail with
          | false =>
            exfalso
            simp only [Store.Save, hsave, hOpt, hneg, if_pos, Store.delete,
              World.deleteItem, World.setCookie] at h
            rw [hdf] at h
            simp at h
          | true =>
            right
            refine ⟨o, rfl, hneg, ?_⟩
            simp only [Store.Save, hsave, hOpt, hneg, if_pos, Store.delete,
              World.deleteItem, World.setCookie]
            rw [hdf]
            simp [hsc]
        · exfalso
          simp only [Store.Save, hsave, hOpt, hneg, if_neg,
            not_false_eq_true] at h
          cases hnew : sess.isNew <;> simp [hnew] at h

/-- Witness for the amended C6: a put failure makes Save return the
error with no cookie emitted. -/
theorem c6_amended_error_cookie_characterisation_witness :
    (Store.Save (New "t" []) "n"
      ⟨.str "s1", true, [("a", "b")], some { maxAge := 10 }⟩
      { putFail := true }).2.cookies =
      ({ putFail := true } : World).cookies ∨
    (∃ o, (⟨.str "s1", true, [("a", "b")],
        some { maxAge := 10 }⟩ : Session).options = some o ∧
      o.maxAge < 0 ∧
      (Store.Save (New "t" []) "n"
        ⟨.str "s1", true, [("a", "b")], some { maxAge := 10 }⟩
        { putFail := true }).2.cookies =
        ({ putFail := true } : World).cookies ++
          [newCookie ⟨.str "s1", true, [("a", "b")], some { maxAge := 10 }⟩
            "n" (.str "")]) :=
  c6_amended_error_cookie_characterisation (New "t" []) "n"
    ⟨.str "s1", true, [("a", "b")], some { maxAge := 10 }⟩
    { putFail := true } .aws rfl


/-- C4 (counterexample): the dynamodbstore variant's New (part_000),
given a request cookie that references a malformed record, returns the
error with no session instead of falling back to a fresh session. -/
theorem c4_counterexample_strict_new_returns_error :
    dynamodbstore.New [1] (some (.str "x")) "n" "freshid"
      { table := [((.str "x"), [(idField, { S := some (.str "x") })])] } =
      .err .malformedSession := rfl

/-- C4 (amended): the dynastore Store.New (options.go) always returns a
session — with no cookie, or when load fails with any error, it returns
the fresh session carrying the generated identifier, isNew = true and
the store-wide default options; the dynamodbstore variant instead
propagates any load error other than NotFound and returns no session. -/
theorem c4_amended_new_fallback
    (store : Store) (name freshId : String) (w : World) (v : GoString)
    (cs : List Nat) (e eStrict : Err)
    (hload : Store.load store name v newSession w = .err e)
    (hstrict : dynamodbstore.load cs name v newSession w = .err eStrict)
    (hne : eStrict ≠ .notFound) :
    Store.New store none name freshId w = .ok (freshSession store freshId) ∧
    Store.New store (some v) name freshId w =
      .ok (freshSession store freshId) ∧
    (freshSession store freshId).isNew = true ∧
    (freshSession store freshId).ID = .str freshId ∧
    (freshSession store freshId).options = some store.options ∧
    dynamodbstore.New cs (some v) name freshId w = .err eStrict := by
  refine ⟨rfl, ?_, rfl, rfl, rfl, ?_⟩
  · simp only [Store.New, hload]
  · simp only [dynamodbstore.New, hstrict, if_neg hne]

/-- Witness for the amended C4 at a malformed stored record. -/
theorem c4_amended_new_fallback_witness :
    Store.New (New "t" [.codecsOpt [1]]) none "n" "freshid"
      { table := [((.str "x"), [(idField, { S := some (.str "x") })])] } =
      .ok (freshSession (New "t" [.codecsOpt [1]]) "freshid") ∧
    Store.New (New "t" [.codecsOpt [1]]) (some (.str "x")) "n" "freshid"
      { table := [((.str "x"), [(idField, { S := some (.str "x") })])] } =
      .ok (freshSession (New "t" [.codecsOpt [1]]) "freshid") ∧
    (freshSession (New "t" [.codecsOpt [1]]) "freshid").isNew = true ∧
    (freshSession (New "t" [.codecsOpt [1]]) "freshid").ID =
      .str "freshid" ∧
    (freshSession (New "t" [.codecsOpt [1]]) "freshid").options =
      some (New "t" [.codecsOpt [1]]).options ∧
    dynamodbstore.New [1] (some (.str "x")) "n" "freshid"
      { table := [((.str "x"), [(idField, { S := some (.str "x") })])] } =
      .err .malformedSession :=
  c4_amended_new_fallback (New "t" [.codecsOpt [1]]) "n" "freshid"
    { table := [((.str "x"), [(idField, { S := some (.str "x") })])] }
    (.str "x") [1] .malformedSession .malformedSession rfl rfl (by decide)

/-- C9 (counterexample): the sdk-v2 fork's Load (store.go) successfully
loads a physically present record but leaves the session flagged new
(isNew stays true, as set by sessions.NewSession) and leaves the
identifier empty instead of the stored "r1". -/
theorem c9_counterexample_v2_load_keeps_isnew :
    V2.Load [("r1", [("id", .S "r1")])] false "r1" ⟨"", true, []⟩ =
      .ok ⟨"", true, [("id", .S "r1")]⟩ ∧
    ("" : String) ≠ "r1" :=
  ⟨rfl, by decide⟩

/-- C9 (amended): on the serializer-based load path (both the gob and
the codec serializer of serializers.go), every successfully unmarshalled
session has isNew = false and carries exactly the identifier stored in
the record's id field; the sdk-v2 fork's Load does not set either. -/
theorem c9_amended_unmarshal_clears_isnew_and_sets_id
    (ser : SerializerKind) (name : String) (input : Record)
    (target s' : Session)
    (h : serializerUnmarshal ser name input target = .ok s') :
    s'.isNew = false ∧
    ∃ av, Record.find input idField = some av ∧ av.S = some s'.ID := by
  cases ser with
  | gobSer =>
    simp only [serializerUnmarshal, gobSerializer.unmarshal] at h
    split at h
    · cases h
    · split at h
      · cases h
      · rename_i av hfind
        split at h
        · cases h
        · rename_i id hS
          split at h
          · cases h
          · rename_i av2 hfind2
            split at h
            · cases h
            · rename_i s hS2
              split at h
              · cases h
              · rename_i values hdec
                split at h
                · cases h
                  exact ⟨rfl, av, hfind, hS⟩
                · rename_i av3 hfind3
                  split at h
                  · cases h
                  · rename_i o hattr
                    cases h
                    exact ⟨rfl, av, hfind, hS⟩
  | codecSer cs =>
    simp only [serializerUnmarshal, codecSerializer.unmarshal] at h
    split at h
    · cases h
    · split at h
      · cases h
      · rename_i av hfind
        split at h
        · cases h
        · rename_i id hS
          split at h
          · cases h
          · rename_i av2 hfind2
            split at h
            · cases h
            · rename_i s hS2
              split at h
              · cases h
              · rename_i values hdec
                split at h
                · cases h
                  exact ⟨rfl, av, hfind, hS⟩
                · rename_i av3 hfind3
                  split at h
                  · cases h
                  · rename_i o hattr
                    cases h
                    exact ⟨rfl, av, hfind, hS⟩

/-- Witness for the amended C9 at a concrete well-formed record. -/
theorem c9_amended_unmarshal_clears_isnew_and_sets_id_witness :
    (⟨.str "r1", false, [("k", "v")], none⟩ : Session).isNew = false ∧
    ∃ av,
      Record.find
        [(idField, { S := some (.str "r1") }),
         (valuesField, { S := some (.token 1 "n" [("k", "v")]) })]
        idField = some av ∧
      av.S = some (⟨.str "r1", false, [("k", "v")], none⟩ : Session).ID :=
  c9_amended_unmarshal_clears_isnew_and_sets_id (.codecSer [1]) "n"
    [(idField, { S := some (.str "r1") }),
     (valuesField, { S := some (.token 1 "n" [("k", "v")]) })]
    newSession ⟨.str "r1", false, [("k", "v")], none⟩ rfl

end Dynastore
